import Mathlib

/-!
Shallow embedding of the nano-banana MCP server (src/index.ts) and its CLI
launcher (the optimized-flags wrapper), for verifying the specification's
claims about the storage fallback logic, the memory-pressure controller,
the buffer lifecycle of binary response parts, and the launcher.

Effects (garbage-collection passes, scheduler yields, log lines, filesystem
calls, the outgoing model call) are modelled as an explicit event trace.
External nondeterminism (the Azure service, the local filesystem, the image
model, generated file names, `process.memoryUsage()`) is supplied by oracle
fields of a `World` record; every function of the embedding is a pure,
executable function of that record.
-/

namespace NanoBanana

/-- Outcome of the `blockBlobClient.upload` call for one blob: the Azure SDK
either resolves (yielding `blockBlobClient.url`) or rejects. -/
inductive UploadOutcome where
  | ok (url : String)
  | err (msg : String)
deriving DecidableEq, Repr

/-- Outcome of the lazy Azure initialization attempt in
`ensureAzureStorageInitialized` (src/index.ts:659-685).  `createThrows`
models `createIfNotExists` rejecting: at that point `this.containerClient`
has already been assigned, so the client remains set; `connThrows` models
`BlobServiceClient.fromConnectionString` throwing, leaving the client unset. -/
inductive InitOutcome where
  | clientOk
  | createThrows
  | connThrows
deriving DecidableEq, Repr

/-- The `inlineData` field of a response part: base64-encoded bytes plus a
MIME type. -/
structure InlineData where
  data : String
  mimeType : String
deriving DecidableEq, Repr

/-- One part of the model response (`response.candidates[0].content.parts`):
an optional text field and an optional `inlineData` field. -/
structure Part where
  text : Option String
  inlineData : Option InlineData
deriving DecidableEq, Repr

/-- Observable events of one tool invocation: GC passes, `setImmediate`
yields, log lines, filesystem calls, buffer allocation/release, the in-place
scrub of a part's base64 field, and the outgoing model call. -/
inductive Event where
  | checkMemLog
  | gcPass
  | gcYield
  | gcLog
  | aggressiveGCCall
  | initFailLog
  | mkdirRecursive (dir : String)
  | uploadAttempt (fileName : String)
  | uploadFailLog
  | writeFileLocal (filePath : String)
  | bufferAlloc (k : Nat)
  | bufferRelease (k : Nat)
  | scrubData (k : Nat)
  | modelCall (contents : List Part)
deriving DecidableEq, Repr

/-- Oracle record for one tool invocation: the ambient process state
(`global.gc`, heap statistics, environment variables, the already-initialized
storage client), and the outcomes of all external calls, indexed by the
order in which the invocation makes them (`k` counts processed binary parts). -/
structure World where
  gcAvailable : Bool
  heapUsed : Nat
  heapTotal : Nat
  envConnString : Bool
  containerPreset : Bool
  initOutcome : InitOutcome
  uploadOutcome : Nat → UploadOutcome
  localWriteOk : Nat → Bool
  fileNameFor : Nat → String
  platformWin : Bool
  homeDir : String
  cwd : String
  modelResponse : Except String (Option (List Part))

/-- `forceAggressiveGC` (src/index.ts:78-90): if `global.gc` is available,
run `for (let i = 0; i < 3; i++) { global.gc(); await setImmediate; }`, then
sample `process.memoryUsage()` and log heap-used and RSS; otherwise the body
does nothing at all. -/
def forceAggressiveGC (gcAvailable : Bool) : List Event :=
  if gcAvailable then
    (List.replicate 3 [Event.gcPass, Event.gcYield]).flatten ++ [Event.gcLog]
  else
    []

/-- `checkMemoryAndGC` (src/index.ts:95-106): sample heap statistics and, when
`usagePercent > 70 && global.gc`, log a warning and run one GC pass.  The
real-valued test `(heapUsed/heapTotal)*100 > 70` is expressed over byte
counts as `10 * heapUsed > 7 * heapTotal`. -/
def checkMemoryAndGC (w : World) : List Event :=
  if 10 * w.heapUsed > 7 * w.heapTotal ∧ w.gcAvailable = true then
    [Event.checkMemLog, Event.gcPass]
  else
    []

/-- `ensureAzureStorageInitialized` (src/index.ts:659-685): when the
environment supplies a connection string and no container client exists yet,
attempt initialization; both failure shapes are caught and logged
(`console.warn`).  Returns whether `this.containerClient` is set afterwards,
together with the emitted log events. -/
def ensureAzureStorageInitialized (w : World) : Bool × List Event :=
  if w.envConnString && !w.containerPreset then
    match w.initOutcome with
    | InitOutcome.clientOk => (true, [])
    | InitOutcome.createThrows => (true, [Event.initFailLog])
    | InitOutcome.connThrows => (false, [Event.initFailLog])
  else
    (w.containerPreset, [])

/-- The container-client state after the lazy initialization attempt. -/
def containerAfterInit (w : World) : Bool :=
  (ensureAzureStorageInitialized w).fst

/-- `uploadToAzureBlob` (src/index.ts:687-708): with no container client,
log and return `null`; otherwise attempt the upload, returning the blob URL
on success and — in the `catch` — logging the failure and returning `null`. -/
def uploadToAzureBlob (w : World) (k : Nat) : Option String × List Event :=
  if containerAfterInit w then
    match w.uploadOutcome k with
    | UploadOutcome.ok url => (some url, [Event.uploadAttempt (w.fileNameFor k)])
    | UploadOutcome.err _ =>
        (none, [Event.uploadAttempt (w.fileNameFor k), Event.uploadFailLog])
  else
    (none, [])

/-- `path.join`, with the separator abstracted to `/`. -/
def pathJoin (dir fileName : String) : String :=
  dir ++ "/" ++ fileName

/-- JavaScript `s.startsWith(pre)`, evaluated over the character lists (the
builtin `String.startsWith` is well-founded-recursive and does not reduce
definitionally). -/
def strStartsWith (s pre : String) : Bool :=
  pre.data.isPrefixOf s.data

/-- `getImagesDirectory` (src/index.ts:710-729). -/
def getImagesDirectory (w : World) : String :=
  if w.platformWin then
    pathJoin (pathJoin w.homeDir "Documents") "nano-banana-images"
  else if strStartsWith w.cwd "/usr/" || strStartsWith w.cwd "/opt/" || strStartsWith w.cwd "/var/" then
    pathJoin w.homeDir "nano-banana-images"
  else
    pathJoin w.cwd "generated_imgs"

/-- The guard `if (part.inlineData?.data)` (src/index.ts:272, 484): the part
carries an `inlineData` object whose `data` string is truthy (non-empty). -/
def isBinaryPart (p : Part) : Bool :=
  match p.inlineData with
  | some idata => idata.data != ""
  | none => false

/-- The in-place scrub `part.inlineData.data = ''` (src/index.ts:299, 510):
the transport-encoded field of the parent response structure is overwritten
with the empty string. -/
def scrubPart (p : Part) : Part :=
  { p with inlineData := p.inlineData.map fun idata => { idata with data := "" } }

/-- Persistence of one decoded binary part (src/index.ts:280-293, 493-504):
try `uploadToAzureBlob` first; when it returns `null` (backend absent or
upload failed), write the bytes to the local images directory.  Only a local
filesystem write failure escapes as an error. -/
def persistBinary (w : World) (imagesDir : String) (k : Nat) :
    Except String String × List Event :=
  let up := uploadToAzureBlob w k
  match up.fst with
  | some url => (Except.ok url, up.snd)
  | none =>
    if w.localWriteOk k then
      (Except.ok (pathJoin imagesDir (w.fileNameFor k)),
        up.snd ++ [Event.writeFileLocal (pathJoin imagesDir (w.fileNameFor k))])
    else
      (Except.error "local write failed", up.snd)

/-- The part-processing loop shared verbatim by `generateImage`
(src/index.ts:264-302) and `editImage` (src/index.ts:478-513): accumulate
text, and for every binary part decode the base64 data into a buffer,
persist it, push the resulting location onto `savedFiles`, release the
buffer reference, and scrub the part's `data` field, before moving to the
next part.  `k` indexes the binary parts in processing order.  Returns the
mutated parts, `savedFiles`, `textContent`, and the event trace. -/
def processParts (w : World) (imagesDir : String) :
    List Part → Nat → Except String (List Part × List String × String) × List Event
  | [], _ => (Except.ok ([], [], ""), [])
  | p :: rest, k =>
    let tIncr := match p.text with | some t => t | none => ""
    if isBinaryPart p then
      let pb := persistBinary w imagesDir k
      match pb.fst with
      | Except.ok loc =>
        let r := processParts w imagesDir rest (k + 1)
        match r.fst with
        | Except.ok (parts, files, text) =>
          (Except.ok (scrubPart p :: parts, loc :: files, tIncr ++ text),
            Event.bufferAlloc k :: pb.snd
              ++ [Event.bufferRelease k, Event.scrubData k] ++ r.snd)
        | Except.error e =>
          (Except.error e,
            Event.bufferAlloc k :: pb.snd
              ++ [Event.bufferRelease k, Event.scrubData k] ++ r.snd)
      | Except.error e => (Except.error e, Event.bufferAlloc k :: pb.snd)
    else
      let r := processParts w imagesDir rest k
      match r.fst with
      | Except.ok (parts, files, text) =>
        (Except.ok (p :: parts, files, tIncr ++ text), r.snd)
      | Except.error e => (Except.error e, r.snd)

/-- The result-URL computation (src/index.ts:315-321, 532-537):
`azureUrl` is `savedFiles[0]` when that first entry starts with `https://`,
and `null` otherwise (including when no file was saved). -/
def computeAzureUrl (savedFiles : List String) : Option String :=
  match savedFiles with
  | [] => none
  | f :: _ => if strStartsWith f "https://" then some f else none

/-- A character escaped as `JSON.stringify` escapes it (quote and backslash;
control characters do not occur in the strings at hand). -/
def jsonEscapeChar (c : Char) : String :=
  if c = '"' then "\\\"" else if c = '\\' then "\\\\" else String.singleton c

/-- A JSON string literal for `s`. -/
def jsonStringOfChars (s : String) : String :=
  "\"" ++ String.join (s.toList.map jsonEscapeChar) ++ "\""

/-- `JSON.stringify({ azureUrl })` (src/index.ts:346, 563): a one-field JSON
object whose value is a string or `null`. -/
def jsonStringifyAzureUrl (azureUrl : Option String) : String :=
  "\x7b\"azureUrl\":" ++
    (match azureUrl with
      | some u => jsonStringOfChars u
      | none => "null") ++ "\x7d"

/-- The `CallToolResult` content produced by the two image tools: a single
text item and the `isError` flag. -/
structure ToolResult where
  text : String
  isError : Bool
deriving DecidableEq, Repr

/-- `generateImage` (src/index.ts:235-360), from the point after the
configuration gate: run `checkMemoryAndGC`, then inside the `try` run the
lazy Azure initialization, the model call, `fs.mkdir` of the images
directory, the part-processing loop, and the result construction; the
`catch` wraps any thrown error as an internal error.  On both exits,
`forceAggressiveGC` is awaited last.  Returns the result (or internal error
message) and the full event trace of the invocation. -/
def generateImage (w : World) : Except String ToolResult × List Event :=
  let pre := checkMemoryAndGC w
  let gcTail := Event.aggressiveGCCall :: forceAggressiveGC w.gcAvailable
  let initEvs := (ensureAzureStorageInitialized w).snd
  match w.modelResponse with
  | Except.error e =>
    (Except.error ("Failed to generate image: " ++ e), pre ++ initEvs ++ gcTail)
  | Except.ok po =>
    let imagesDir := getImagesDirectory w
    let mkdirEvs := [Event.mkdirRecursive imagesDir]
    match po with
    | none =>
      (Except.ok ⟨jsonStringifyAzureUrl (computeAzureUrl []), false⟩,
        pre ++ initEvs ++ mkdirEvs ++ gcTail)
    | some ps =>
      let r := processParts w imagesDir ps 0
      match r.fst with
      | Except.ok (_, files, _) =>
        (Except.ok ⟨jsonStringifyAzureUrl (computeAzureUrl files), false⟩,
          pre ++ initEvs ++ mkdirEvs ++ r.snd ++ gcTail)
      | Except.error e =>
        (Except.error ("Failed to generate image: " ++ e),
          pre ++ initEvs ++ mkdirEvs ++ r.snd ++ gcTail)

/-- Outcome of loading one input image (main or reference) in `editImage`:
the bytes and MIME type were obtained (by `fetch` of an `https://` path or
`fs.readFile` of a local path), or the `https://` fetch resolved with
`!response.ok`, or the fetch/read threw. -/
inductive RefOutcome where
  | fetchOk (data : String) (mimeType : String)
  | fetchNotOk (statusText : String)
  | loadError (msg : String)
deriving DecidableEq, Repr

/-- One reference image argument together with its load outcome. -/
structure RefSpec where
  path : String
  outcome : RefOutcome
deriving DecidableEq, Repr

/-- Loading of one reference image (src/index.ts:415-449): the whole body is
wrapped in `try { ... } catch { continue; }`, and an `https://` fetch with
`!response.ok` hits `continue` as well, so a failed reference image yields
`none` rather than an error. -/
def loadRefCaught (r : RefSpec) : Option InlineData :=
  match r.outcome with
  | RefOutcome.fetchOk d m => some ⟨d, m⟩
  | RefOutcome.fetchNotOk _ => none
  | RefOutcome.loadError _ => none

/-- Loading of the main image (src/index.ts:383-396): a non-OK fetch throws
`Failed to fetch image from URL`, and a thrown fetch/read error propagates
to the surrounding `try`. -/
def loadMain (o : RefOutcome) : Except String InlineData :=
  match o with
  | RefOutcome.fetchOk d m => Except.ok ⟨d, m⟩
  | RefOutcome.fetchNotOk st => Except.error ("Failed to fetch image from URL: " ++ st)
  | RefOutcome.loadError e => Except.error e

/-- Assembly of `imageParts` (src/index.ts:401-454): the main image first,
then each successfully loaded reference image in order, then the text
prompt. -/
def buildImageParts (main : InlineData) (refs : List RefSpec) (prompt : String) :
    List Part :=
  (⟨none, some main⟩ : Part) ::
    (refs.filterMap fun r => (loadRefCaught r).map fun d => (⟨none, some d⟩ : Part))
    ++ [(⟨some prompt, none⟩ : Part)]

/-- `editImage` (src/index.ts:362-576), from the point after the
configuration gate: `checkMemoryAndGC`, lazy Azure initialization, main
image load (fatal on failure), best-effort reference loading, the model
call, `fs.mkdir`, the part-processing loop, result construction; any thrown
error is wrapped as an internal error, and `forceAggressiveGC` is awaited on
both exits. -/
def editImage (w : World) (mainOutcome : RefOutcome) (refs : List RefSpec)
    (prompt : String) : Except String ToolResult × List Event :=
  let pre := checkMemoryAndGC w
  let gcTail := Event.aggressiveGCCall :: forceAggressiveGC w.gcAvailable
  let initEvs := (ensureAzureStorageInitialized w).snd
  match loadMain mainOutcome with
  | Except.error e =>
    (Except.error ("Failed to edit image: " ++ e), pre ++ initEvs ++ gcTail)
  | Except.ok mainData =>
    let callEvs := [Event.modelCall (buildImageParts mainData refs prompt)]
    match w.modelResponse with
    | Except.error e =>
      (Except.error ("Failed to edit image: " ++ e),
        pre ++ initEvs ++ callEvs ++ gcTail)
    | Except.ok po =>
      let imagesDir := getImagesDirectory w
      let mkdirEvs := [Event.mkdirRecursive imagesDir]
      match po with
      | none =>
        (Except.ok ⟨jsonStringifyAzureUrl (computeAzureUrl []), false⟩,
          pre ++ initEvs ++ callEvs ++ mkdirEvs ++ gcTail)
      | some ps =>
        let r := processParts w imagesDir ps 0
        match r.fst with
        | Except.ok (_, files, _) =>
          (Except.ok ⟨jsonStringifyAzureUrl (computeAzureUrl files), false⟩,
            pre ++ initEvs ++ callEvs ++ mkdirEvs ++ r.snd ++ gcTail)
        | Except.error e =>
          (Except.error ("Failed to edit image: " ++ e),
            pre ++ initEvs ++ callEvs ++ mkdirEvs ++ r.snd ++ gcTail)

/-- Environment of the CLI launcher (the optimized-flags wrapper documented
in the repository's README and K8s guide): whether `global.gc` is already
callable, the `MAX_OLD_SPACE_SIZE` environment variable, `process.argv`
past the script path, and the exit code reported by the child's `exit`
event (absent when unavailable). -/
structure LauncherEnv where
  gcCallable : Bool
  maxOldSpaceSizeEnv : Option String
  argv : List String
  childExit : Option Int
deriving DecidableEq, Repr

/-- The launcher's terminal behavior: run the main program in-process, or
spawn exactly one child with the given node flags and script arguments,
inheriting stdio and the environment, and exit with the given code when the
child exits. -/
inductive LaunchResult where
  | direct
  | supervise (nodeFlags : List String) (scriptArgs : List String)
      (stdioInherit : Bool) (envInherit : Bool) (parentExitCode : Int)
deriving DecidableEq, Repr

/-- JavaScript `code || 0` on the child exit code: `null` and `0` both map
to `0`. -/
def jsOrZero : Option Int → Int
  | none => 0
  | some n => n

/-- The CLI wrapper (optimized-flags variant): if `typeof global.gc ===
'function'` the main program is imported directly; otherwise one child is
spawned with `--expose-gc`, `--max-old-space-size=<MAX_OLD_SPACE_SIZE or
512>`, `--optimize-for-size`, the main script, and the original arguments,
with `stdio: 'inherit'` and `env: process.env`, and on the child's `exit`
event the parent calls `process.exit(code || 0)`. -/
def cliLauncher (e : LauncherEnv) : LaunchResult :=
  if e.gcCallable then
    LaunchResult.direct
  else
    let maxOldSpaceSize := e.maxOldSpaceSizeEnv.getD "512"
    LaunchResult.supervise
      ["--expose-gc", "--max-old-space-size=" ++ maxOldSpaceSize, "--optimize-for-size"]
      e.argv true true (jsOrZero e.childExit)

/-- State of the per-part buffer lifecycle while scanning an event trace:
no live decoded buffer, a live buffer for binary part `k`, or a released
buffer whose part still awaits the in-place scrub. -/
inductive BufState where
  | idle
  | live (k : Nat)
  | pendingScrub (k : Nat)
deriving DecidableEq, Repr

/-- Whether an event belongs to the buffer lifecycle. -/
def isBufEvent : Event → Bool
  | Event.bufferAlloc _ => true
  | Event.bufferRelease _ => true
  | Event.scrubData _ => true
  | _ => false

/-- Checker for the buffer lifecycle discipline over a trace: buffers are
allocated only when none is live, each is released and its part scrubbed
before the next allocation, and no buffer is live at the end.  Non-buffer
events pass through. -/
def bufferDiscipline : BufState → List Event → Bool
  | BufState.idle, [] => true
  | BufState.live _, [] => false
  | BufState.pendingScrub _, [] => false
  | s, e :: rest =>
    match s, e with
    | BufState.idle, Event.bufferAlloc k => bufferDiscipline (BufState.live k) rest
    | BufState.live k, Event.bufferRelease j =>
        k == j && bufferDiscipline (BufState.pendingScrub k) rest
    | BufState.pendingScrub k, Event.scrubData j =>
        k == j && bufferDiscipline BufState.idle rest
    | s', e' => if isBufEvent e' then false else bufferDiscipline s' rest

/-- A part whose transport-encoded field holds no data: either it has no
`inlineData`, or the `data` string is empty. -/
def partScrubbed (p : Part) : Bool :=
  match p.inlineData with
  | some idata => idata.data == ""
  | none => true

/-! ### Concrete worlds used by witnesses and counterexamples -/

/-- A world with the GC capability unavailable and heap usage above the 70%
threshold. -/
def wNoGc : World :=
  { gcAvailable := false, heapUsed := 90, heapTotal := 100,
    envConnString := false, containerPreset := false,
    initOutcome := InitOutcome.clientOk,
    uploadOutcome := fun _ => UploadOutcome.err "network",
    localWriteOk := fun _ => true,
    fileNameFor := fun _ => "generated-t-r.png",
    platformWin := false, homeDir := "/home/u", cwd := "/work",
    modelResponse := Except.ok none }

/-- A world with a configured remote backend where every upload succeeds and
the model returns one binary part. -/
def wAllRemote : World :=
  { gcAvailable := true, heapUsed := 10, heapTotal := 100,
    envConnString := true, containerPreset := false,
    initOutcome := InitOutcome.clientOk,
    uploadOutcome := fun _ => UploadOutcome.ok "https://acc.blob.core.windows.net/nano-banana-images/img.png",
    localWriteOk := fun _ => true,
    fileNameFor := fun k => "generated-t-" ++ toString k ++ ".png",
    platformWin := false, homeDir := "/home/u", cwd := "/work",
    modelResponse := Except.ok (some [⟨none, some ⟨"QUJD", "image/png"⟩⟩]) }

/-- A world with a configured remote backend whose uploads all fail, and a
model response with one binary part. -/
def wRemoteFailing : World :=
  { gcAvailable := true, heapUsed := 10, heapTotal := 100,
    envConnString := true, containerPreset := false,
    initOutcome := InitOutcome.clientOk,
    uploadOutcome := fun _ => UploadOutcome.err "503",
    localWriteOk := fun _ => true,
    fileNameFor := fun k => "generated-t-" ++ toString k ++ ".png",
    platformWin := false, homeDir := "/home/u", cwd := "/work",
    modelResponse := Except.ok (some [⟨none, some ⟨"QUJD", "image/png"⟩⟩]) }

/-- A world whose first upload fails (falling back to a local write) while
the second upload succeeds, with a model response of two binary parts. -/
def wMixed : World :=
  { gcAvailable := true, heapUsed := 10, heapTotal := 100,
    envConnString := true, containerPreset := false,
    initOutcome := InitOutcome.clientOk,
    uploadOutcome := fun k =>
      if k == 0 then UploadOutcome.err "503"
      else UploadOutcome.ok "https://acc.blob.core.windows.net/nano-banana-images/late.png",
    localWriteOk := fun _ => true,
    fileNameFor := fun k => "generated-t-" ++ toString k ++ ".png",
    platformWin := false, homeDir := "/home/u", cwd := "/work",
    modelResponse := Except.ok (some
      [⟨none, some ⟨"QUJD", "image/png"⟩⟩, ⟨none, some ⟨"REVG", "image/png"⟩⟩]) }

/-- Three reference images of which the second fails to load. -/
def refsThree : List RefSpec :=
  [⟨"/a.png", RefOutcome.fetchOk "AAA" "image/png"⟩,
   ⟨"/b.png", RefOutcome.loadError "ENOENT"⟩,
   ⟨"/c.png", RefOutcome.fetchOk "CCC" "image/png"⟩]

/-! ### Helper lemmas -/

lemma forceAggressiveGC_true_eq :
    forceAggressiveGC true =
      [Event.gcPass, Event.gcYield, Event.gcPass, Event.gcYield,
       Event.gcPass, Event.gcYield, Event.gcLog] := rfl

lemma forceAggressiveGC_false_eq : forceAggressiveGC false = [] := rfl

lemma checkMemoryAndGC_no_write (w : World) (p' : String) :
    Event.writeFileLocal p' ∉ checkMemoryAndGC w := by
  unfold checkMemoryAndGC
  split <;> simp

lemma ensureAzure_events (w : World) :
    ∀ e ∈ (ensureAzureStorageInitialized w).snd, e = Event.initFailLog := by
  unfold ensureAzureStorageInitialized
  split
  · cases w.initOutcome <;> simp
  · simp

lemma forceAggressiveGC_no_write (b : Bool) (p' : String) :
    Event.writeFileLocal p' ∉ forceAggressiveGC b := by
  cases b <;> simp [forceAggressiveGC_true_eq, forceAggressiveGC_false_eq]

lemma persistBinary_ok_of_localOk (w : World) (dir : String) (k : Nat)
    (h : w.localWriteOk k = true) :
    ∃ loc, (persistBinary w dir k).fst = Except.ok loc ∧
      ((uploadToAzureBlob w k).fst = some loc ∨
        ((uploadToAzureBlob w k).fst = none ∧ loc = pathJoin dir (w.fileNameFor k))) := by
  cases hu : (uploadToAzureBlob w k).fst with
  | some url => exact ⟨url, by simp [persistBinary, hu], Or.inl rfl⟩
  | none =>
    exact ⟨pathJoin dir (w.fileNameFor k), by simp [persistBinary, hu, h],
      Or.inr ⟨rfl, rfl⟩⟩

lemma processParts_ok (w : World) (dir : String)
    (hl : ∀ j, w.localWriteOk j = true) :
    ∀ ps k, ∃ out, (processParts w dir ps k).fst = Except.ok out := by
  intro ps
  induction ps with
  | nil => exact fun k => ⟨([], [], ""), rfl⟩
  | cons p rest ih =>
    intro k
    by_cases hb : isBinaryPart p = true
    · obtain ⟨loc, hloc, _⟩ := persistBinary_ok_of_localOk w dir k (hl k)
      obtain ⟨⟨parts, files, text⟩, hout⟩ := ih (k + 1)
      exact ⟨(scrubPart p :: parts, loc :: files,
        (match p.text with | some t => t | none => "") ++ text),
        by simp [processParts, hb, hloc, hout]⟩
    · obtain ⟨⟨parts, files, text⟩, hout⟩ := ih k
      exact ⟨(p :: parts, files,
        (match p.text with | some t => t | none => "") ++ text),
        by simp [processParts, hb, hout]⟩

lemma partScrubbed_scrubPart (p : Part) : partScrubbed (scrubPart p) = true := by
  cases h : p.inlineData <;> simp [partScrubbed, scrubPart, h]

lemma partScrubbed_of_not_binary (p : Part) (h : isBinaryPart p = false) :
    partScrubbed p = true := by
  cases hi : p.inlineData with
  | none => simp [partScrubbed, hi]
  | some idata =>
    rw [isBinaryPart, hi] at h
    simp only [bne_eq_false_iff_eq] at h
    simp [partScrubbed, hi, h]

lemma processParts_scrubbed (w : World) (dir : String) :
    ∀ ps k parts files text,
      (processParts w dir ps k).fst = Except.ok (parts, files, text) →
      parts.all partScrubbed = true := by
  intro ps
  induction ps with
  | nil =>
    intro k parts files text h
    simp only [processParts] at h
    cases h
    rfl
  | cons p rest ih =>
    intro k parts files text h
    by_cases hb : isBinaryPart p = true
    · cases hpb : (persistBinary w dir k).fst with
      | error e => simp [processParts, hb, hpb] at h
      | ok loc =>
        cases hr : (processParts w dir rest (k + 1)).fst with
        | error e => simp [processParts, hb, hpb, hr] at h
        | ok out =>
          obtain ⟨parts', files', text'⟩ := out
          simp only [processParts, hb, hpb, hr, if_true, Except.ok.injEq,
            Prod.mk.injEq] at h
          obtain ⟨rfl, rfl, rfl⟩ := h
          rw [List.all_cons, partScrubbed_scrubPart, Bool.true_and]
          exact ih _ _ _ _ hr
    · cases hr : (processParts w dir rest k).fst with
      | error e => simp [processParts, hb, hr] at h
      | ok out =>
        obtain ⟨parts', files', text'⟩ := out
        simp only [processParts, hb, hr, if_false, Except.ok.injEq,
          Prod.mk.injEq] at h
        obtain ⟨rfl, rfl, rfl⟩ := h
        rw [List.all_cons, partScrubbed_of_not_binary p (by simpa using hb), Bool.true_and]
        exact ih _ _ _ _ hr

lemma bufferDiscipline_idle_alloc (k : Nat) (l : List Event) :
    bufferDiscipline BufState.idle (Event.bufferAlloc k :: l) =
      bufferDiscipline (BufState.live k) l := rfl

lemma bufferDiscipline_live_release (k : Nat) (l : List Event) :
    bufferDiscipline (BufState.live k) (Event.bufferRelease k :: l) =
      bufferDiscipline (BufState.pendingScrub k) l := by
  simp [bufferDiscipline]

lemma bufferDiscipline_pending_scrub (k : Nat) (l : List Event) :
    bufferDiscipline (BufState.pendingScrub k) (Event.scrubData k :: l) =
      bufferDiscipline BufState.idle l := by
  simp [bufferDiscipline]

lemma bufferDiscipline_cons_nonbuf (s : BufState) (e : Event) (l : List Event)
    (he : isBufEvent e = false) :
    bufferDiscipline s (e :: l) = bufferDiscipline s l := by
  cases s <;> cases e <;> simp [bufferDiscipline, isBufEvent] at he ⊢

lemma bufferDiscipline_append_nonbuf :
    ∀ evs : List Event, (∀ e ∈ evs, isBufEvent e = false) →
      ∀ (s : BufState) (rest : List Event),
        bufferDiscipline s (evs ++ rest) = bufferDiscipline s rest := by
  intro evs
  induction evs with
  | nil => intro _ s rest; rfl
  | cons e evs ih =>
    intro h s rest
    rw [List.cons_append,
      bufferDiscipline_cons_nonbuf s e _ (h e (List.mem_cons_self e evs))]
    exact ih (fun e' m => h e' (List.mem_cons_of_mem e m)) s rest

lemma persistBinary_events_nonbuf (w : World) (dir : String) (k : Nat) :
    ∀ e ∈ (persistBinary w dir k).snd, isBufEvent e = false := by
  unfold persistBinary uploadToAzureBlob
  by_cases hc : containerAfterInit w = true <;>
    cases hu : w.uploadOutcome k <;>
      by_cases hl : w.localWriteOk k = true <;>
        simp_all [isBufEvent]

lemma processParts_discipline (w : World) (dir : String) :
    ∀ ps k parts files text,
      (processParts w dir ps k).fst = Except.ok (parts, files, text) →
      bufferDiscipline BufState.idle (processParts w dir ps k).snd = true := by
  intro ps
  induction ps with
  | nil => intro k parts files text _; rfl
  | cons p rest ih =>
    intro k parts files text h
    by_cases hb : isBinaryPart p = true
    · cases hpb : (persistBinary w dir k).fst with
      | error e => simp [processParts, hb, hpb] at h
      | ok loc =>
        cases hr : (processParts w dir rest (k + 1)).fst with
        | error e => simp [processParts, hb, hpb, hr] at h
        | ok out =>
          obtain ⟨parts', files', text'⟩ := out
          have hsnd : (processParts w dir (p :: rest) k).snd =
              Event.bufferAlloc k :: (persistBinary w dir k).snd
                ++ [Event.bufferRelease k, Event.scrubData k]
                ++ (processParts w dir rest (k + 1)).snd := by
            simp [processParts, hb, hpb, hr]
          have hassoc : Event.bufferAlloc k :: (persistBinary w dir k).snd
                ++ [Event.bufferRelease k, Event.scrubData k]
                ++ (processParts w dir rest (k + 1)).snd
              = Event.bufferAlloc k :: ((persistBinary w dir k).snd
                ++ (Event.bufferRelease k :: Event.scrubData k
                  :: (processParts w dir rest (k + 1)).snd)) := by
            simp
          rw [hsnd, hassoc, bufferDiscipline_idle_alloc,
            bufferDiscipline_append_nonbuf _ (persistBinary_events_nonbuf w dir k),
            bufferDiscipline_live_release, bufferDiscipline_pending_scrub]
          exact ih _ _ _ _ hr
    · cases hr : (processParts w dir rest k).fst with
      | error e => simp [processParts, hb, hr] at h
      | ok out =>
        obtain ⟨parts', files', text'⟩ := out
        have hsnd : (processParts w dir (p :: rest) k).snd =
            (processParts w dir rest k).snd := by
          simp [processParts, hb, hr]
        rw [hsnd]
        exact ih _ _ _ _ hr

lemma processParts_no_write (w : World) (dir : String)
    (hc : containerAfterInit w = true)
    (hup : ∀ j, ∃ u, w.uploadOutcome j = UploadOutcome.ok u) :
    ∀ ps k p', Event.writeFileLocal p' ∉ (processParts w dir ps k).snd := by
  intro ps
  induction ps with
  | nil => intro k p'; simp [processParts]
  | cons p rest ih =>
    intro k p'
    by_cases hb : isBinaryPart p = true
    · obtain ⟨u, hu⟩ := hup k
      have hupl : (uploadToAzureBlob w k).fst = some u := by
        simp [uploadToAzureBlob, hc, hu]
      have hpb : (persistBinary w dir k).fst = Except.ok u := by
        simp [persistBinary, hupl]
      have hpbsnd : (persistBinary w dir k).snd =
          [Event.uploadAttempt (w.fileNameFor k)] := by
        simp [persistBinary, uploadToAzureBlob, hc, hu]
      cases hr : (processParts w dir rest (k + 1)).fst with
      | ok out =>
        obtain ⟨parts, files, text⟩ := out
        have hsnd : (processParts w dir (p :: rest) k).snd =
            Event.bufferAlloc k :: (persistBinary w dir k).snd
              ++ [Event.bufferRelease k, Event.scrubData k]
              ++ (processParts w dir rest (k + 1)).snd := by
          simp [processParts, hb, hpb, hr]
        intro hmem
        rw [hsnd, hpbsnd] at hmem
        simp at hmem
        exact ih (k + 1) p' hmem
      | error e =>
        have hsnd : (processParts w dir (p :: rest) k).snd =
            Event.bufferAlloc k :: (persistBinary w dir k).snd
              ++ [Event.bufferRelease k, Event.scrubData k]
              ++ (processParts w dir rest (k + 1)).snd := by
          simp [processParts, hb, hpb, hr]
        intro hmem
        rw [hsnd, hpbsnd] at hmem
        simp at hmem
        exact ih (k + 1) p' hmem
    · cases hr : (processParts w dir rest k).fst with
      | ok out =>
        obtain ⟨parts, files, text⟩ := out
        have hsnd : (processParts w dir (p :: rest) k).snd =
            (processParts w dir rest k).snd := by
          simp [processParts, hb, hr]
        rw [hsnd]
        exact ih k p'
      | error e =>
        have hsnd : (processParts w dir (p :: rest) k).snd =
            (processParts w dir rest k).snd := by
          simp [processParts, hb, hr]
        rw [hsnd]
        exact ih k p'

lemma generateImage_fst_ok (w : World) (ps parts : List Part)
    (files : List String) (text : String)
    (hm : w.modelResponse = Except.ok (some ps))
    (hp : (processParts w (getImagesDirectory w) ps 0).fst =
      Except.ok (parts, files, text)) :
    (generateImage w).fst =
      Except.ok ⟨jsonStringifyAzureUrl (computeAzureUrl files), false⟩ := by
  simp [generateImage, hm, hp]

lemma generateImage_snd_ok (w : World) (ps : List Part)
    (hm : w.modelResponse = Except.ok (some ps)) :
    (generateImage w).snd =
      checkMemoryAndGC w ++ (ensureAzureStorageInitialized w).snd
        ++ [Event.mkdirRecursive (getImagesDirectory w)]
        ++ (processParts w (getImagesDirectory w) ps 0).snd
        ++ (Event.aggressiveGCCall :: forceAggressiveGC w.gcAvailable) := by
  cases hr : (processParts w (getImagesDirectory w) ps 0).fst with
  | ok out =>
    obtain ⟨parts, files, text⟩ := out
    simp [generateImage, hm, hr]
  | error e => simp [generateImage, hm, hr]

lemma editImage_fst_ok (w : World) (refs : List RefSpec) (prompt d m : String)
    (ps parts : List Part) (files : List String) (text : String)
    (hm : w.modelResponse = Except.ok (some ps))
    (hp : (processParts w (getImagesDirectory w) ps 0).fst =
      Except.ok (parts, files, text)) :
    (editImage w (RefOutcome.fetchOk d m) refs prompt).fst =
      Except.ok ⟨jsonStringifyAzureUrl (computeAzureUrl files), false⟩ := by
  simp [editImage, loadMain, hm, hp]

/-! ### C1: remote failures caught, local fallback, exclusive result -/

/-- **C1.**  Remote-storage failures (initialization, container creation,
upload) are caught at the router boundary and logged: a failing upload
yields `null` rather than an exception, a failing initialization leaves the
backend absent (or set, for a create failure) with a warning logged, and the
invocation still succeeds.  Per persistence call the outcome is exactly one
of remote URL (upload succeeded) or local fallback path (backend absent or
upload failed), never both and never neither. -/
theorem remote_failure_caught_and_fallback
    (w : World) (dir : String) (ps : List Part)
    (hl : ∀ j, w.localWriteOk j = true)
    (hm : w.modelResponse = Except.ok (some ps)) :
    (∀ k e, w.uploadOutcome k = UploadOutcome.err e →
      (uploadToAzureBlob w k).fst = none) ∧
    (∀ k e, containerAfterInit w = true → w.uploadOutcome k = UploadOutcome.err e →
      Event.uploadFailLog ∈ (uploadToAzureBlob w k).snd) ∧
    (w.envConnString = true → w.containerPreset = false →
      w.initOutcome ≠ InitOutcome.clientOk →
      Event.initFailLog ∈ (ensureAzureStorageInitialized w).snd) ∧
    (∀ k, ∃ loc, (persistBinary w dir k).fst = Except.ok loc ∧
      ((uploadToAzureBlob w k).fst = some loc ∨
        ((uploadToAzureBlob w k).fst = none ∧ loc = pathJoin dir (w.fileNameFor k))) ∧
      ¬((uploadToAzureBlob w k).fst = some loc ∧ (uploadToAzureBlob w k).fst = none)) ∧
    (∃ r, (generateImage w).fst = Except.ok r) := by
  refine ⟨?_, ?_, ?_, ?_, ?_⟩
  · intro k e he
    by_cases hc : containerAfterInit w = true <;> simp [uploadToAzureBlob, hc, he]
  · intro k e hc he
    simp [uploadToAzureBlob, hc, he]
  · intro h1 h2 h3
    cases hio : w.initOutcome with
    | clientOk => rw [hio] at h3; exact absurd rfl h3
    | createThrows => simp [ensureAzureStorageInitialized, h1, h2, hio]
    | connThrows => simp [ensureAzureStorageInitialized, h1, h2, hio]
  · intro k
    obtain ⟨loc, hok, hcases⟩ := persistBinary_ok_of_localOk w dir k (hl k)
    exact ⟨loc, hok, hcases,
      fun h => Option.noConfusion (h.1.symm.trans h.2)⟩
  · obtain ⟨⟨parts, files, text⟩, hout⟩ :=
      processParts_ok w (getImagesDirectory w) hl ps 0
    exact ⟨⟨jsonStringifyAzureUrl (computeAzureUrl files), false⟩,
      generateImage_fst_ok w ps parts files text hm hout⟩

/-- Witness for C1 at `wRemoteFailing`: a configured backend whose upload
rejects; the invocation still succeeds with a local fallback path. -/
theorem remote_failure_caught_and_fallback_witness :
    (∀ k e, wRemoteFailing.uploadOutcome k = UploadOutcome.err e →
      (uploadToAzureBlob wRemoteFailing k).fst = none) ∧
    (∀ k e, containerAfterInit wRemoteFailing = true →
      wRemoteFailing.uploadOutcome k = UploadOutcome.err e →
      Event.uploadFailLog ∈ (uploadToAzureBlob wRemoteFailing k).snd) ∧
    (wRemoteFailing.envConnString = true → wRemoteFailing.containerPreset = false →
      wRemoteFailing.initOutcome ≠ InitOutcome.clientOk →
      Event.initFailLog ∈ (ensureAzureStorageInitialized wRemoteFailing).snd) ∧
    (∀ k, ∃ loc, (persistBinary wRemoteFailing "d" k).fst = Except.ok loc ∧
      ((uploadToAzureBlob wRemoteFailing k).fst = some loc ∨
        ((uploadToAzureBlob wRemoteFailing k).fst = none ∧
          loc = pathJoin "d" (wRemoteFailing.fileNameFor k))) ∧
      ¬((uploadToAzureBlob wRemoteFailing k).fst = some loc ∧
        (uploadToAzureBlob wRemoteFailing k).fst = none)) ∧
    (∃ r, (generateImage wRemoteFailing).fst = Except.ok r) :=
  remote_failure_caught_and_fallback wRemoteFailing "d"
    [⟨none, some ⟨"QUJD", "image/png"⟩⟩] (fun _ => rfl) rfl

/-! ### C5: scrub in place, buffer released before the next part -/

/-- **C5.**  For every binary part processed by the shared part loop of
`generate_image`/`edit_image`: after the loop succeeds, every part in the
mutated response has an empty transport-encoded `data` field, and the event
trace observes the buffer lifecycle discipline — each decoded buffer is
released and its part's `data` field scrubbed before the next part's buffer
is allocated, with no live buffer remaining at the end. -/
theorem binary_parts_scrubbed_and_buffer_dropped
    (w : World) (dir : String) (ps : List Part) (k : Nat)
    (parts : List Part) (files : List String) (text : String)
    (hp : (processParts w dir ps k).fst = Except.ok (parts, files, text)) :
    parts.all partScrubbed = true ∧
    bufferDiscipline BufState.idle (processParts w dir ps k).snd = true :=
  ⟨processParts_scrubbed w dir ps k parts files text hp,
   processParts_discipline w dir ps k parts files text hp⟩

/-- Witness for C5: one binary part, failing upload, local fallback. -/
theorem binary_parts_scrubbed_and_buffer_dropped_witness :
    ([(⟨none, some ⟨"", "image/png"⟩⟩ : Part)]).all partScrubbed = true ∧
    bufferDiscipline BufState.idle
      (processParts wRemoteFailing "d" [⟨none, some ⟨"QUJD", "image/png"⟩⟩] 0).snd
      = true :=
  binary_parts_scrubbed_and_buffer_dropped wRemoteFailing "d"
    [⟨none, some ⟨"QUJD", "image/png"⟩⟩] 0
    [⟨none, some ⟨"", "image/png"⟩⟩] ["d/generated-t-0.png"] "" rfl

/-! ### C3: three reclamation passes with yields -/

/-- **C3.**  When the forced-reclamation capability (`global.gc`) is
available, `forceAggressiveGC` performs exactly 3 GC passes, yields control
to the scheduler (`await setImmediate`) after every pass — in particular
between any two consecutive passes, never looping synchronously — and after
the passes samples and logs heap-used and resident-set. -/
theorem aggressive_gc_three_passes_with_yields :
    forceAggressiveGC true =
      [Event.gcPass, Event.gcYield, Event.gcPass, Event.gcYield,
       Event.gcPass, Event.gcYield, Event.gcLog] ∧
    (forceAggressiveGC true).count Event.gcPass = 3 ∧
    (forceAggressiveGC true).count Event.gcYield = 3 ∧
    ((forceAggressiveGC true).zip ((forceAggressiveGC true).drop 1)).all
      (fun q => !(q.fst == Event.gcPass) || (q.snd == Event.gcYield)) = true ∧
    (forceAggressiveGC true).getLast? = some Event.gcLog := by
  refine ⟨rfl, ?_, ?_, ?_, ?_⟩ <;> decide

/-! ### C8: behavior when the capability is unavailable (corrected) -/

/-- **C8 counterexample.**  With `global.gc` unavailable (and heap usage
above the threshold), both `checkMemoryAndGC` and `forceAggressiveGC` emit
no events at all — in particular neither yields to the scheduler, refuting
the claim that each "yields once to the scheduler". -/
theorem no_yield_without_gc_capability_cex :
    checkMemoryAndGC wNoGc = [] ∧
    forceAggressiveGC wNoGc.gcAvailable = [] ∧
    10 * wNoGc.heapUsed > 7 * wNoGc.heapTotal ∧
    (checkMemoryAndGC wNoGc).count Event.gcYield = 0 ∧
    ¬((forceAggressiveGC wNoGc.gcAvailable).count Event.gcYield = 1) := by
  refine ⟨?_, ?_, ?_, ?_, ?_⟩ <;> decide

/-- **C8 (amended).**  When the forced-reclamation capability is
unavailable, `checkMemoryAndGC` and `forceAggressiveGC` are no-ops: they
perform no reclamation pass, no logging, and — unlike the dead `triggerGC`
helper — do not yield to the scheduler. -/
theorem no_op_without_gc_capability (w : World) (h : w.gcAvailable = false) :
    checkMemoryAndGC w = [] ∧ forceAggressiveGC w.gcAvailable = [] := by
  constructor
  · unfold checkMemoryAndGC
    rw [if_neg]
    intro hc
    rw [h] at hc
    exact absurd hc.2 (by simp)
  · rw [h]
    exact forceAggressiveGC_false_eq

/-- Witness for C8 amended at the concrete world `wNoGc`. -/
theorem no_op_without_gc_capability_witness :
    checkMemoryAndGC wNoGc = [] ∧ forceAggressiveGC wNoGc.gcAvailable = [] :=
  no_op_without_gc_capability wNoGc rfl

/-! ### C6: the restart-for-capability launcher -/

/-- **C6.**  At launcher start: if `global.gc` is already callable the
launcher spawns no child and runs the main program directly; otherwise it
spawns exactly one child with `--expose-gc`, a heap bound defaulting to 512
and overridable via `MAX_OLD_SPACE_SIZE`, and `--optimize-for-size`, plus
the original arguments unchanged, inheriting stdio and environment, and on
child exit the parent exits with the child's exit code, defaulting to 0. -/
theorem launcher_direct_or_single_spawn (e : LauncherEnv) :
    (e.gcCallable = true → cliLauncher e = LaunchResult.direct) ∧
    (e.gcCallable = false →
      cliLauncher e = LaunchResult.supervise
        ["--expose-gc", "--max-old-space-size=" ++ e.maxOldSpaceSizeEnv.getD "512",
         "--optimize-for-size"]
        e.argv true true (jsOrZero e.childExit)) ∧
    (e.maxOldSpaceSizeEnv = none → e.maxOldSpaceSizeEnv.getD "512" = "512") ∧
    (∀ v, e.maxOldSpaceSizeEnv = some v → e.maxOldSpaceSizeEnv.getD "512" = v) ∧
    (e.childExit = none → jsOrZero e.childExit = 0) := by
  refine ⟨fun h => ?_, fun h => ?_, fun h => ?_, fun v h => ?_, fun h => ?_⟩ <;>
    simp [cliLauncher, jsOrZero, h]

/-! ### C4: aggressive reclamation on both exit paths -/

/-- **C4.**  For every `generate_image` and `edit_image` invocation,
`forceAggressiveGC` is awaited at the very end of the invocation on both
the success path and the error path: every possible trace ends with the
aggressive-reclamation call, so it runs before any internal-error result is
returned. -/
theorem aggressive_reclaim_on_both_paths (w : World) (main : RefOutcome)
    (refs : List RefSpec) (prompt : String) :
    (∃ evs, (generateImage w).snd =
      evs ++ Event.aggressiveGCCall :: forceAggressiveGC w.gcAvailable) ∧
    (∃ evs, (editImage w main refs prompt).snd =
      evs ++ Event.aggressiveGCCall :: forceAggressiveGC w.gcAvailable) := by
  constructor
  · cases hm : w.modelResponse with
    | error e =>
      exact ⟨checkMemoryAndGC w ++ (ensureAzureStorageInitialized w).snd,
        by simp [generateImage, hm, List.append_assoc]⟩
    | ok po =>
      cases po with
      | none =>
        exact ⟨checkMemoryAndGC w ++ (ensureAzureStorageInitialized w).snd
            ++ [Event.mkdirRecursive (getImagesDirectory w)],
          by simp [generateImage, hm, List.append_assoc]⟩
      | some ps =>
        refine ⟨checkMemoryAndGC w ++ (ensureAzureStorageInitialized w).snd
            ++ [Event.mkdirRecursive (getImagesDirectory w)]
            ++ (processParts w (getImagesDirectory w) ps 0).snd, ?_⟩
        cases hr : (processParts w (getImagesDirectory w) ps 0).fst with
        | ok out =>
          obtain ⟨parts, files, text⟩ := out
          simp [generateImage, hm, hr, List.append_assoc]
        | error e => simp [generateImage, hm, hr, List.append_assoc]
  · cases main with
    | fetchNotOk st =>
      exact ⟨checkMemoryAndGC w ++ (ensureAzureStorageInitialized w).snd,
        by simp [editImage, loadMain, List.append_assoc]⟩
    | loadError e =>
      exact ⟨checkMemoryAndGC w ++ (ensureAzureStorageInitialized w).snd,
        by simp [editImage, loadMain, List.append_assoc]⟩
    | fetchOk d m =>
      cases hm : w.modelResponse with
      | error e =>
        exact ⟨checkMemoryAndGC w ++ (ensureAzureStorageInitialized w).snd
            ++ [Event.modelCall (buildImageParts ⟨d, m⟩ refs prompt)],
          by simp [editImage, loadMain, hm, List.append_assoc]⟩
      | ok po =>
        cases po with
        | none =>
          exact ⟨checkMemoryAndGC w ++ (ensureAzureStorageInitialized w).snd
              ++ [Event.modelCall (buildImageParts ⟨d, m⟩ refs prompt)]
              ++ [Event.mkdirRecursive (getImagesDirectory w)],
            by simp [editImage, loadMain, hm, List.append_assoc]⟩
        | some ps =>
          refine ⟨checkMemoryAndGC w ++ (ensureAzureStorageInitialized w).snd
              ++ [Event.modelCall (buildImageParts ⟨d, m⟩ refs prompt)]
              ++ [Event.mkdirRecursive (getImagesDirectory w)]
              ++ (processParts w (getImagesDirectory w) ps 0).snd, ?_⟩
          cases hr : (processParts w (getImagesDirectory w) ps 0).fst with
          | ok out =>
            obtain ⟨parts, files, text⟩ := out
            simp [editImage, loadMain, hm, hr, List.append_assoc]
          | error e => simp [editImage, loadMain, hm, hr, List.append_assoc]

/-! ### C9: local directory is still created on an all-remote invocation
(corrected) -/

/-- **C9 counterexample.**  With a configured remote backend and every
upload succeeding, the invocation still performs the recursive `mkdir` of
the local fallback directory (src/index.ts:262 runs unconditionally), so
the directory is not left untouched: the claim's "not created" part fails. -/
theorem local_dir_mkdir_despite_remote_cex :
    containerAfterInit wAllRemote = true ∧
    (uploadToAzureBlob wAllRemote 0).fst =
      some "https://acc.blob.core.windows.net/nano-banana-images/img.png" ∧
    (generateImage wAllRemote).fst = Except.ok
      ⟨jsonStringifyAzureUrl
        (some "https://acc.blob.core.windows.net/nano-banana-images/img.png"), false⟩ ∧
    Event.mkdirRecursive (getImagesDirectory wAllRemote)
      ∈ (generateImage wAllRemote).snd := by
  refine ⟨rfl, rfl, rfl, ?_⟩
  decide

/-- **C9 (amended).**  When a remote backend is configured and every binary
part of a `generate_image` invocation uploads successfully, no file is
written to the local fallback directory — but the directory itself is still
created (recursive `mkdir`) by the invocation. -/
theorem no_local_write_when_all_uploads_succeed
    (w : World) (ps : List Part)
    (hc : containerAfterInit w = true)
    (hup : ∀ j, ∃ u, w.uploadOutcome j = UploadOutcome.ok u)
    (hm : w.modelResponse = Except.ok (some ps)) :
    (∀ p', Event.writeFileLocal p' ∉ (generateImage w).snd) ∧
    Event.mkdirRecursive (getImagesDirectory w) ∈ (generateImage w).snd := by
  have hsnd := generateImage_snd_ok w ps hm
  constructor
  · intro p'
    have h1 := checkMemoryAndGC_no_write w p'
    have h2 : Event.writeFileLocal p' ∉ (ensureAzureStorageInitialized w).snd :=
      fun hmem => Event.noConfusion (ensureAzure_events w _ hmem)
    have h3 := processParts_no_write w (getImagesDirectory w) hc hup ps 0 p'
    have h4 : Event.writeFileLocal p' ∉ forceAggressiveGC w.gcAvailable :=
      forceAggressiveGC_no_write _ p'
    rw [hsnd]
    simp [List.mem_append, h1, h2, h3, h4]
  · rw [hsnd]
    simp

/-- Witness for C9 amended at `wAllRemote`. -/
theorem no_local_write_when_all_uploads_succeed_witness :
    (∀ p', Event.writeFileLocal p' ∉ (generateImage wAllRemote).snd) ∧
    Event.mkdirRecursive (getImagesDirectory wAllRemote)
      ∈ (generateImage wAllRemote).snd :=
  no_local_write_when_all_uploads_succeed wAllRemote
    [⟨none, some ⟨"QUJD", "image/png"⟩⟩] rfl
    (fun _ => ⟨"https://acc.blob.core.windows.net/nano-banana-images/img.png", rfl⟩)
    rfl

/-! ### C2: result payload is a one-field JSON object, URL or null -/

/-- **C2.**  Every successful `generate_image` or `edit_image` invocation
returns a structured text payload that is a one-field JSON object whose
value is a string or `null` (the remote-URL field, serialized as
`azureUrl`): the remote public URL when the first saved file is a remote
URL, and `null` when the image was persisted only locally or no binary part
was produced. -/
theorem result_payload_remote_url_or_null
    (w : World) (ps parts : List Part) (files : List String) (text : String)
    (refs : List RefSpec) (prompt d m : String)
    (hm : w.modelResponse = Except.ok (some ps))
    (hp : (processParts w (getImagesDirectory w) ps 0).fst =
      Except.ok (parts, files, text)) :
    (generateImage w).fst =
      Except.ok ⟨jsonStringifyAzureUrl (computeAzureUrl files), false⟩ ∧
    (editImage w (RefOutcome.fetchOk d m) refs prompt).fst =
      Except.ok ⟨jsonStringifyAzureUrl (computeAzureUrl files), false⟩ ∧
    (computeAzureUrl files = none →
      jsonStringifyAzureUrl (computeAzureUrl files) = "\x7b\"azureUrl\":null\x7d") ∧
    (∀ u, computeAzureUrl files = some u →
      jsonStringifyAzureUrl (computeAzureUrl files) =
        "\x7b\"azureUrl\":" ++ jsonStringOfChars u ++ "\x7d") ∧
    (files = [] → computeAzureUrl files = none) ∧
    ((∀ f ∈ files, strStartsWith f "https://" = false) →
      computeAzureUrl files = none) ∧
    (∀ f tl, files = f :: tl → strStartsWith f "https://" = true →
      computeAzureUrl files = some f) := by
  refine ⟨generateImage_fst_ok w ps parts files text hm hp,
    editImage_fst_ok w refs prompt d m ps parts files text hm hp,
    ?_, ?_, ?_, ?_, ?_⟩
  · intro h
    rw [h]
    rfl
  · intro u h
    rw [h]
    rfl
  · intro h
    rw [h]
    rfl
  · intro h
    cases files with
    | nil => rfl
    | cons f tl =>
      have hf := h f (List.mem_cons_self f tl)
      simp [computeAzureUrl, hf]
  · intro f tl hft hpre
    rw [hft]
    simp [computeAzureUrl, hpre]

/-- Witness for C2 at `wAllRemote`: one binary part uploaded remotely. -/
theorem result_payload_remote_url_or_null_witness :
    (generateImage wAllRemote).fst =
      Except.ok ⟨jsonStringifyAzureUrl (computeAzureUrl
        ["https://acc.blob.core.windows.net/nano-banana-images/img.png"]), false⟩ ∧
    (editImage wAllRemote (RefOutcome.fetchOk "TUFJTg" "image/png") [] "p").fst =
      Except.ok ⟨jsonStringifyAzureUrl (computeAzureUrl
        ["https://acc.blob.core.windows.net/nano-banana-images/img.png"]), false⟩ ∧
    (computeAzureUrl ["https://acc.blob.core.windows.net/nano-banana-images/img.png"]
        = none →
      jsonStringifyAzureUrl (computeAzureUrl
        ["https://acc.blob.core.windows.net/nano-banana-images/img.png"])
        = "\x7b\"azureUrl\":null\x7d") ∧
    (∀ u, computeAzureUrl
        ["https://acc.blob.core.windows.net/nano-banana-images/img.png"] = some u →
      jsonStringifyAzureUrl (computeAzureUrl
        ["https://acc.blob.core.windows.net/nano-banana-images/img.png"])
        = "\x7b\"azureUrl\":" ++ jsonStringOfChars u ++ "\x7d") ∧
    (["https://acc.blob.core.windows.net/nano-banana-images/img.png"] = ([] : List String) →
      computeAzureUrl ["https://acc.blob.core.windows.net/nano-banana-images/img.png"]
        = none) ∧
    ((∀ f ∈ ["https://acc.blob.core.windows.net/nano-banana-images/img.png"],
        strStartsWith f "https://" = false) →
      computeAzureUrl ["https://acc.blob.core.windows.net/nano-banana-images/img.png"]
        = none) ∧
    (∀ f tl,
      ["https://acc.blob.core.windows.net/nano-banana-images/img.png"] = f :: tl →
      strStartsWith f "https://" = true →
      computeAzureUrl ["https://acc.blob.core.windows.net/nano-banana-images/img.png"]
        = some f) :=
  result_payload_remote_url_or_null wAllRemote
    [⟨none, some ⟨"QUJD", "image/png"⟩⟩]
    [⟨none, some ⟨"", "image/png"⟩⟩]
    ["https://acc.blob.core.windows.net/nano-banana-images/img.png"] ""
    [] "p" "TUFJTg" "image/png" rfl rfl

/-! ### C10: only the first saved file determines the surfaced URL -/

/-- **C10.**  The URL surfaced by a `generate_image`/`edit_image` result
depends only on the first saved file: it is `savedFiles[0]` exactly when
that entry starts with the literal prefix `https://`, and `null` otherwise;
remote URLs among the later saved files are never surfaced. -/
theorem url_from_first_saved_file_only
    (w : World) (ps parts : List Part) (files : List String) (text : String)
    (refs : List RefSpec) (prompt d m : String)
    (hm : w.modelResponse = Except.ok (some ps))
    (hp : (processParts w (getImagesDirectory w) ps 0).fst =
      Except.ok (parts, files, text)) :
    (generateImage w).fst =
      Except.ok ⟨jsonStringifyAzureUrl (computeAzureUrl files), false⟩ ∧
    (editImage w (RefOutcome.fetchOk d m) refs prompt).fst =
      Except.ok ⟨jsonStringifyAzureUrl (computeAzureUrl files), false⟩ ∧
    computeAzureUrl [] = none ∧
    (∀ f tl tl', computeAzureUrl (f :: tl) = computeAzureUrl (f :: tl')) ∧
    (∀ f tl, strStartsWith f "https://" = true →
      computeAzureUrl (f :: tl) = some f) ∧
    (∀ f tl, strStartsWith f "https://" = false →
      computeAzureUrl (f :: tl) = none) := by
  refine ⟨generateImage_fst_ok w ps parts files text hm hp,
    editImage_fst_ok w refs prompt d m ps parts files text hm hp,
    rfl, fun f tl tl' => rfl, ?_, ?_⟩
  · intro f tl h
    simp [computeAzureUrl, h]
  · intro f tl h
    simp [computeAzureUrl, h]

/-- Witness for C10 at `wMixed`: the first part falls back to a local path
while the second uploads remotely, and the surfaced URL is still `null`. -/
theorem url_from_first_saved_file_only_witness :
    (generateImage wMixed).fst =
      Except.ok ⟨jsonStringifyAzureUrl (computeAzureUrl
        ["/work/generated_imgs/generated-t-0.png",
         "https://acc.blob.core.windows.net/nano-banana-images/late.png"]), false⟩ ∧
    (editImage wMixed (RefOutcome.fetchOk "TUFJTg" "image/png") [] "p").fst =
      Except.ok ⟨jsonStringifyAzureUrl (computeAzureUrl
        ["/work/generated_imgs/generated-t-0.png",
         "https://acc.blob.core.windows.net/nano-banana-images/late.png"]), false⟩ ∧
    computeAzureUrl [] = none ∧
    (∀ f tl tl', computeAzureUrl (f :: tl) = computeAzureUrl (f :: tl')) ∧
    (∀ f tl, strStartsWith f "https://" = true →
      computeAzureUrl (f :: tl) = some f) ∧
    (∀ f tl, strStartsWith f "https://" = false →
      computeAzureUrl (f :: tl) = none) :=
  url_from_first_saved_file_only wMixed
    [⟨none, some ⟨"QUJD", "image/png"⟩⟩, ⟨none, some ⟨"REVG", "image/png"⟩⟩]
    [⟨none, some ⟨"", "image/png"⟩⟩, ⟨none, some ⟨"", "image/png"⟩⟩]
    ["/work/generated_imgs/generated-t-0.png",
     "https://acc.blob.core.windows.net/nano-banana-images/late.png"] ""
    [] "p" "TUFJTg" "image/png" rfl rfl

/-! ### C7: a failing reference image is skipped, not fatal -/

lemma filterMap_eraseIdx_none {α β : Type} (g : α → Option β) :
    ∀ (l : List α) (i : Nat) (hi : i < l.length),
      g (l.get ⟨i, hi⟩) = none →
      l.filterMap g = (l.eraseIdx i).filterMap g := by
  intro l
  induction l with
  | nil => intro i hi; exact absurd hi (Nat.not_lt_zero i)
  | cons x xs ih =>
    intro i hi hg
    cases i with
    | zero =>
      simp only [List.get] at hg
      simp [List.eraseIdx, List.filterMap_cons, hg]
    | succ i =>
      simp only [List.get] at hg
      have hrec := ih i (by simpa using hi) hg
      cases hgx : g x <;>
        simp [List.eraseIdx, List.filterMap_cons, hgx, hrec]

/-- **C7.**  In `edit_image`, a fetch or read failure on a single reference
image is caught per-image: a thrown load is converted to a skip, the failed
image is omitted from the outgoing model call (the call equals the one made
with that reference removed), and the whole invocation — result and trace —
is the same as if the failed reference had not been supplied; no error is
raised for it. -/
theorem reference_image_failure_skipped
    (w : World) (main : RefOutcome) (refs : List RefSpec) (prompt : String)
    (i : Nat) (hi : i < refs.length)
    (hfail : loadRefCaught (refs.get ⟨i, hi⟩) = none) :
    (∀ r msg, r.outcome = RefOutcome.loadError msg → loadRefCaught r = none) ∧
    (∀ md : InlineData,
      buildImageParts md refs prompt = buildImageParts md (refs.eraseIdx i) prompt) ∧
    editImage w main refs prompt = editImage w main (refs.eraseIdx i) prompt := by
  have hbp : ∀ md : InlineData,
      buildImageParts md refs prompt = buildImageParts md (refs.eraseIdx i) prompt := by
    intro md
    unfold buildImageParts
    rw [filterMap_eraseIdx_none _ refs i hi (by simp only [hfail]; rfl)]
  refine ⟨fun r msg h => by simp [loadRefCaught, h], hbp, ?_⟩
  cases main with
  | fetchOk d m =>
    simp only [editImage, loadMain]
    rw [hbp ⟨d, m⟩]
  | fetchNotOk st => rfl
  | loadError e => rfl

/-- Witness for C7: three reference images with the second failing; the
call proceeds with the first and third. -/
theorem reference_image_failure_skipped_witness :
    (∀ r msg, r.outcome = RefOutcome.loadError msg → loadRefCaught r = none) ∧
    (∀ md : InlineData,
      buildImageParts md refsThree "p" = buildImageParts md (refsThree.eraseIdx 1) "p") ∧
    editImage wAllRemote (RefOutcome.fetchOk "TUFJTg" "image/png") refsThree "p" =
      editImage wAllRemote (RefOutcome.fetchOk "TUFJTg" "image/png")
        (refsThree.eraseIdx 1) "p" :=
  reference_image_failure_skipped wAllRemote (RefOutcome.fetchOk "TUFJTg" "image/png")
    refsThree "p" 1 (by simp [refsThree]) rfl

end NanoBanana



